import Mathlib

/-!
A shallow embedding of the `sqslisten` crate (src/lib.rs): a polling
listener for an SQS queue.  Pure data is translated directly; the side
effects of the loop (calls to the queue client and to the user handler)
are made observable as an explicit event trace, and the outcomes of the
external queue client (`receive_message`, `delete_message`) are supplied
by oracles, since the client is an external collaborator.
-/

namespace SqsListen

/-- Model of `rusoto_core::Region`; the core only stores it. -/
inductive Region where
  | UsEast1 : Region
  | other : String → Region
deriving DecidableEq, Repr

/-- Model of `rusoto_sqs::Message`.  The core reads only `receipt_handle`
and passes the whole message to the handler; the remaining fields it
carries are opaque, represented here by the two main payload fields. -/
structure Message where
  body : Option String
  message_id : Option String
  receipt_handle : Option String
deriving DecidableEq, Repr

/-- Model of `rusoto_sqs::ReceiveMessageRequest`.  The core reads
`queue_url` and `wait_time_seconds` and forwards the rest unchanged.
`wait_time_seconds` is an `i64` in the source, modelled as `Int`. -/
structure ReceiveMessageRequest where
  attribute_names : Option (List String)
  max_number_of_messages : Option Int
  message_attribute_names : Option (List String)
  queue_url : String
  receive_request_attempt_id : Option String
  visibility_timeout : Option Int
  wait_time_seconds : Option Int
deriving DecidableEq, Repr

/-- Model of `rusoto_sqs::ReceiveMessageResult`. -/
structure ReceiveMessageResult where
  messages : Option (List Message)
deriving DecidableEq, Repr

/-- Model of `rusoto_sqs::DeleteMessageRequest`. -/
structure DeleteMessageRequest where
  queue_url : String
  receipt_handle : String
deriving DecidableEq, Repr

/-- Opaque model of `rusoto_core::RusotoError<E>`: the core never
inspects the error it receives from the client, it only forwards it. -/
structure RusotoError where
  message : String
deriving DecidableEq, Repr

/-- `pub struct HandlerError;` -/
structure HandlerError where
deriving DecidableEq, Repr

/-- The user handler type:
`Fn(Option<&Message>, Option<RusotoError<ReceiveMessageError>>) -> Result<(), HandlerError>`. -/
abbrev Handler := Option Message → Option RusotoError → Except HandlerError Unit

/-- Outcome oracle for `SqsClient::delete_message(...).sync()`. -/
abbrev DeleteOracle := DeleteMessageRequest → Except RusotoError Unit

/-- Model of `rusoto_sqs::SqsClient`: external collaborator; the core
only constructs it from a region and clones it. -/
structure SqsClient where
  region : Region
deriving DecidableEq, Repr

/-- `SqsClient::new(region)`. -/
def SqsClient.new (region : Region) : SqsClient :=
  { region := region }

/-- `pub struct SQSListen { sqs_client: SqsClient, queue_url: String }` -/
structure SQSListen where
  sqs_client : SqsClient
  queue_url : String
deriving DecidableEq, Repr

/-- `SQSListen::new(region)`. -/
def SQSListen.new (region : Region) : SQSListen :=
  { sqs_client := SqsClient.new region, queue_url := "" }

/-- The observable calls the core makes during the poll loop:
a `receive_message` call against the client (recording the request it
was given), an invocation of the user handler (recording its two
arguments), and a `delete_message` call against the client. -/
inductive Event where
  | receiveCall : ReceiveMessageRequest → Event
  | handlerCall : Option Message → Option RusotoError → Event
  | deleteCall : DeleteMessageRequest → Event
deriving DecidableEq, Repr

/-- Is this event an invocation of the user handler? -/
def Event.isHandlerCall : Event → Bool
  | .handlerCall _ _ => true
  | _ => false

/-- Is this event a `delete_message` call? -/
def Event.isDeleteCall : Event → Bool
  | .deleteCall _ => true
  | _ => false

/-- Is this event a `receive_message` call? -/
def Event.isReceiveCall : Event → Bool
  | .receiveCall _ => true
  | _ => false

/-- `SQSListen::ack_message`: if the message has no receipt handle,
return immediately; otherwise issue one `delete_message` call built
from the adapter's `queue_url` and the message's receipt handle, and
ignore its result (`let _ignore = ... .sync();`).  Returns the trace of
client calls made. -/
def SQSListen.ack_message (self : SQSListen) (deleteFn : DeleteOracle)
    (message : Message) : List Event :=
  match message.receipt_handle with
  | none => []
  | some rh =>
      let request : DeleteMessageRequest :=
        { queue_url := self.queue_url, receipt_handle := rh }
      let _ignore := deleteFn request
      [Event.deleteCall request]

/-- The `for message in messages` loop body of
`SQSListen::process_response`: invoke the handler with
`(Some(&message), None)`, ignore its result, then acknowledge the
message; continue with the rest of the list. -/
def SQSListen.process_messages (self : SQSListen) (deleteFn : DeleteOracle)
    (handler : Handler) : List Message → List Event
  | [] => []
  | message :: rest =>
      let _ignored := handler (some message) none
      (Event.handlerCall (some message) none :: self.ack_message deleteFn message)
        ++ self.process_messages deleteFn handler rest

/-- `SQSListen::process_response`: match on `response.messages`;
iterate when present, do nothing when absent. -/
def SQSListen.process_response (self : SQSListen) (deleteFn : DeleteOracle)
    (response : ReceiveMessageResult) (handler : Handler) : List Event :=
  match response.messages with
  | some messages => self.process_messages deleteFn handler messages
  | none => []

/-- `const DEFAULT_INTERVAL: u32 = 1;` -/
def DEFAULT_INTERVAL : Nat := 1

/-- `wait_time as u32`: Rust's `as` cast from `i64` to `u32` keeps the
low 32 bits, i.e. reduces the value modulo 2^32 to the range [0, 2^32). -/
def i64_as_u32 (w : Int) : Nat :=
  (w % (2 ^ 32 : Int)).toNat

/-- The interval computation in `SQSListen::listen`:
`match input.wait_time_seconds { Some(w) => (w as u32 + 1).seconds(), None => DEFAULT_INTERVAL.seconds() }`.
The `+ 1` is `u32` addition, which wraps modulo 2^32.  The result is a
number of seconds. -/
def listen_interval (input : ReceiveMessageRequest) : Nat :=
  match input.wait_time_seconds with
  | some wait_time => (i64_as_u32 wait_time + 1) % 2 ^ 32
  | none => DEFAULT_INTERVAL

/-- The state set up by `SQSListen::listen` before the scheduler starts:
the mutated adapter (`self.queue_url = input.queue_url.clone()`), the
clone `that` captured by the closure, the captured request `input`, and
the interval computed once from the request. -/
structure ListenState where
  self : SQSListen
  that : SQSListen
  input : ReceiveMessageRequest
  interval : Nat
deriving DecidableEq, Repr

/-- `SQSListen::listen` up to the point the scheduler is started:
writes `queue_url` from the request, clones the adapter into the
closure, computes the interval once. -/
def SQSListen.listen (self : SQSListen) (input : ReceiveMessageRequest) :
    ListenState :=
  let self := { self with queue_url := input.queue_url }
  let that := self
  let interval := listen_interval input
  { self := self, that := that, input := input, interval := interval }

/-- One firing of the scheduled closure in `SQSListen::listen`:
call `receive_message(input.clone())`; on `Ok` dispatch the response,
on `Err` call the handler with `(None, Some(err))` and ignore its
result.  The outcome of the external receive call is supplied as an
argument.  Returns the trace of calls made during the tick. -/
def SQSListen.tick (that : SQSListen) (deleteFn : DeleteOracle)
    (input : ReceiveMessageRequest) (handler : Handler)
    (receiveOutcome : Except RusotoError ReceiveMessageResult) : List Event :=
  Event.receiveCall input ::
    match receiveOutcome with
    | .ok response => that.process_response deleteFn response handler
    | .error err =>
        let _ignored := handler none (some err)
        [Event.handlerCall none (some err)]

/-- A run of the scheduler: one `tick` per firing, in order, each with
the receive outcome the external client produced for that firing.  The
closure's captured state (`that`, `input`) is immutable across ticks. -/
def runTicks (st : ListenState) (deleteFn : DeleteOracle) (handler : Handler) :
    List (Except RusotoError ReceiveMessageResult) → List Event
  | [] => []
  | outcome :: rest =>
      st.that.tick deleteFn st.input handler outcome
        ++ runTicks st deleteFn handler rest

/-- Is this a well-formed handler invocation in the sense of the
interface contract: exactly one of the two arguments present?  Events
other than handler invocations satisfy it vacuously. -/
def Event.handlerCallOneSided : Event → Bool
  | .handlerCall m e => (m.isSome && e.isNone) || (m.isNone && e.isSome)
  | _ => true

/-- A concrete request with the given queue url and wait time and all
pass-through fields absent, for concrete evaluations. -/
def mkRequest (u : String) (w : Option Int) : ReceiveMessageRequest :=
  { attribute_names := none, max_number_of_messages := none,
    message_attribute_names := none, queue_url := u,
    receive_request_attempt_id := none, visibility_timeout := none,
    wait_time_seconds := w }

/-! ### Helper lemmas about the traces -/

lemma ack_message_oracle_free (self : SQSListen) (d1 d2 : DeleteOracle)
    (m : Message) : self.ack_message d1 m = self.ack_message d2 m := by
  cases h : m.receipt_handle <;> simp [SQSListen.ack_message, h]

lemma ack_message_all_delete (self : SQSListen) (d : DeleteOracle)
    (m : Message) : (self.ack_message d m).all Event.isDeleteCall = true := by
  cases h : m.receipt_handle <;>
    simp [SQSListen.ack_message, h, Event.isDeleteCall]

lemma ack_message_no_handler (self : SQSListen) (d : DeleteOracle)
    (m : Message) : (self.ack_message d m).filter Event.isHandlerCall = [] := by
  cases h : m.receipt_handle <;>
    simp [SQSListen.ack_message, h, Event.isHandlerCall]

lemma ack_message_no_receive (self : SQSListen) (d : DeleteOracle)
    (m : Message) : (self.ack_message d m).filter Event.isReceiveCall = [] := by
  cases h : m.receipt_handle <;>
    simp [SQSListen.ack_message, h, Event.isReceiveCall]

lemma process_messages_oracle_free (self : SQSListen) (d1 d2 : DeleteOracle)
    (handler : Handler) (msgs : List Message) :
    self.process_messages d1 handler msgs = self.process_messages d2 handler msgs := by
  induction msgs with
  | nil => rfl
  | cons m rest ih =>
      simp [SQSListen.process_messages, ih, ack_message_oracle_free self d1 d2 m]

lemma process_messages_handler_free (self : SQSListen) (d : DeleteOracle)
    (h1 h2 : Handler) (msgs : List Message) :
    self.process_messages d h1 msgs = self.process_messages d h2 msgs := by
  induction msgs with
  | nil => rfl
  | cons m rest ih => simp [SQSListen.process_messages, ih]

lemma process_messages_filter_handler (self : SQSListen) (d : DeleteOracle)
    (handler : Handler) (msgs : List Message) :
    (self.process_messages d handler msgs).filter Event.isHandlerCall
      = msgs.map (fun m => Event.handlerCall (some m) none) := by
  induction msgs with
  | nil => rfl
  | cons m rest ih =>
      simp [SQSListen.process_messages, List.filter_append, ih,
        ack_message_no_handler, Event.isHandlerCall]

lemma process_messages_no_receive (self : SQSListen) (d : DeleteOracle)
    (handler : Handler) (msgs : List Message) :
    (self.process_messages d handler msgs).filter Event.isReceiveCall = [] := by
  induction msgs with
  | nil => rfl
  | cons m rest ih =>
      simp [SQSListen.process_messages, List.filter_append, ih,
        ack_message_no_receive, Event.isReceiveCall]

lemma process_messages_one_sided (self : SQSListen) (d : DeleteOracle)
    (handler : Handler) (msgs : List Message) :
    (self.process_messages d handler msgs).all Event.handlerCallOneSided = true := by
  induction msgs with
  | nil => rfl
  | cons m rest ih =>
      have hack := ack_message_all_delete self d m
      simp only [SQSListen.process_messages, List.all_append, List.all_cons,
        Bool.and_eq_true, ih, and_true]
      refine ⟨rfl, ?_⟩
      revert hack
      cases hmr : m.receipt_handle <;>
        simp [SQSListen.ack_message, hmr, Event.handlerCallOneSided]

lemma tick_filter_receive (that : SQSListen) (d : DeleteOracle)
    (input : ReceiveMessageRequest) (handler : Handler)
    (outcome : Except RusotoError ReceiveMessageResult) :
    (that.tick d input handler outcome).filter Event.isReceiveCall
      = [Event.receiveCall input] := by
  cases outcome with
  | ok response =>
      cases hresp : response.messages with
      | none =>
          simp [SQSListen.tick, SQSListen.process_response, hresp,
            Event.isReceiveCall]
      | some msgs =>
          simp [SQSListen.tick, SQSListen.process_response, hresp,
            Event.isReceiveCall, process_messages_no_receive]
  | error err => simp [SQSListen.tick, Event.isReceiveCall]

lemma runTicks_filter_receive (st : ListenState) (d : DeleteOracle)
    (handler : Handler)
    (outcomes : List (Except RusotoError ReceiveMessageResult)) :
    (runTicks st d handler outcomes).filter Event.isReceiveCall
      = List.replicate outcomes.length (Event.receiveCall st.input) := by
  induction outcomes with
  | nil => rfl
  | cons outcome rest ih =>
      simp [runTicks, List.filter_append, ih, tick_filter_receive,
        List.replicate_succ]

/-! ### Claim theorems -/

/-- Claim C1: for a receive result containing the messages `msgs`, the
dispatcher's trace is exactly, per message in order: one handler
invocation `(Some(m), None)` followed by that message's acknowledgment
attempt; hence the handler is invoked exactly `msgs.length` times, once
per message in order, each delete attempt is dispatched only after that
message's handler call, and the trace does not depend on the handler's
return values (success or failure). -/
theorem C1_per_message_dispatch (self : SQSListen) (d : DeleteOracle)
    (handler : Handler) (msgs : List Message) :
    self.process_response d ⟨some msgs⟩ handler
        = (msgs.map
            (fun m => Event.handlerCall (some m) none :: self.ack_message d m)).flatten
    ∧ (self.process_response d ⟨some msgs⟩ handler).filter Event.isHandlerCall
        = msgs.map (fun m => Event.handlerCall (some m) none)
    ∧ ((self.process_response d ⟨some msgs⟩ handler).filter Event.isHandlerCall).length
        = msgs.length
    ∧ (∀ handler2 : Handler,
        self.process_response d ⟨some msgs⟩ handler2
          = self.process_response d ⟨some msgs⟩ handler) := by
  refine ⟨?_, process_messages_filter_handler self d handler msgs, ?_, ?_⟩
  · show self.process_messages d handler msgs = _
    induction msgs with
    | nil => rfl
    | cons m rest ih => simp [SQSListen.process_messages, ih]
  · show ((self.process_messages d handler msgs).filter Event.isHandlerCall).length = _
    rw [process_messages_filter_handler self d handler msgs]
    simp
  · intro handler2
    exact process_messages_handler_free self d handler2 handler msgs

/-- Claim C2, counterexample: the wait time `2^32` is a non-negative
integer carried by the request, yet the computed interval is `1` second,
not `2^32 + 1` seconds, because the `i64` wait time is cast to `u32`. -/
theorem C2_counterexample :
    (0 : Int) ≤ 2 ^ 32
    ∧ (mkRequest "q" (some (2 ^ 32))).wait_time_seconds = some (2 ^ 32)
    ∧ ((SQSListen.new Region.UsEast1).listen
          (mkRequest "q" (some (2 ^ 32)))).interval = 1
    ∧ ((2 ^ 32 : Int) + 1).toNat ≠ 1 := by
  refine ⟨by decide, rfl, ?_, by decide⟩
  decide

/-- Claim C2 (amended): for a listen call whose request carries a wait
time `w` with `0 ≤ w < 2^32 - 1`, the computed polling interval equals
`w + 1` seconds; with no wait time it equals the fixed default of `1`
second; the interval is computed once at listen time, from the request
alone (the adapter state does not influence it), and stored in the
handle state. -/
theorem C2_interval_formula (self : SQSListen) (input : ReceiveMessageRequest)
    (w : Int) (hw0 : 0 ≤ w) (hw : w < 2 ^ 32 - 1)
    (hws : input.wait_time_seconds = some w) :
    (self.listen input).interval = (w + 1).toNat
    ∧ (∀ (self2 : SQSListen) (input2 : ReceiveMessageRequest),
        input2.wait_time_seconds = none → (self2.listen input2).interval = 1)
    ∧ (∀ self2 : SQSListen,
        (self2.listen input).interval = listen_interval input) := by
  refine ⟨?_, ?_, fun self2 => rfl⟩
  · simp only [SQSListen.listen, listen_interval, i64_as_u32, hws]
    omega
  · intro self2 input2 hnone
    simp [SQSListen.listen, listen_interval, hnone, DEFAULT_INTERVAL]

/-- Witness for C2 (amended): scenario A of the spec, wait time 5
yields a 6-second interval. -/
theorem C2_interval_formula_witness :
    ((SQSListen.new Region.UsEast1).listen (mkRequest "q" (some 5))).interval = 6 :=
  ((C2_interval_formula (SQSListen.new Region.UsEast1) (mkRequest "q" (some 5))
      5 (by decide) (by decide) rfl).1).trans (by decide)

/-- Claim C3: on a tick whose receive call fails with `err`, the trace
is exactly the receive call followed by one handler invocation
`(None, Some(err))`; so the handler is invoked exactly once with the
error, zero delete attempts occur on that tick, and the run of the
remaining ticks is unchanged: the error tick's trace is merely prepended
to the trace of the subsequent ticks, each of which still issues its
receive call. -/
theorem C3_receive_failure (that : SQSListen) (d : DeleteOracle)
    (input : ReceiveMessageRequest) (handler : Handler) (err : RusotoError)
    (st : ListenState) (rest : List (Except RusotoError ReceiveMessageResult)) :
    that.tick d input handler (.error err)
        = [Event.receiveCall input, Event.handlerCall none (some err)]
    ∧ (that.tick d input handler (.error err)).filter Event.isHandlerCall
        = [Event.handlerCall none (some err)]
    ∧ (that.tick d input handler (.error err)).filter Event.isDeleteCall = []
    ∧ runTicks st d handler (.error err :: rest)
        = st.that.tick d st.input handler (.error err)
            ++ runTicks st d handler rest
    ∧ ((runTicks st d handler (.error err :: rest)).filter
          Event.isReceiveCall).length = rest.length + 1 := by
  refine ⟨rfl, ?_, ?_, rfl, ?_⟩
  · simp [SQSListen.tick, Event.isHandlerCall]
  · simp [SQSListen.tick, Event.isDeleteCall]
  · rw [runTicks_filter_receive]
    simp

/-- Claim C4: acknowledging a message with no receipt handle produces an
empty trace (no delete call, no handler call, nothing surfaced);
acknowledging a message with receipt handle `rh` produces exactly one
delete call carrying `rh` and the adapter's queue url; and after
`listen`, the adapter clone used by the loop carries the queue url of
the request passed to that listen call, so the delete call of a message
acknowledged by the loop carries the listened request's queue url. -/
theorem C4_ack_receipt_handle (self : SQSListen) (d : DeleteOracle)
    (b i : Option String) (rh : String) (self0 : SQSListen)
    (input : ReceiveMessageRequest) :
    self.ack_message d { body := b, message_id := i, receipt_handle := none } = []
    ∧ self.ack_message d { body := b, message_id := i, receipt_handle := some rh }
        = [Event.deleteCall { queue_url := self.queue_url, receipt_handle := rh }]
    ∧ (self0.listen input).that.queue_url = input.queue_url
    ∧ (self0.listen input).that.ack_message d
          { body := b, message_id := i, receipt_handle := some rh }
        = [Event.deleteCall { queue_url := input.queue_url, receipt_handle := rh }] :=
  ⟨rfl, rfl, rfl, rfl⟩

/-- Claim C5: the outcome of the delete operation is fully swallowed:
the dispatcher's trace (and hence everything reported to the handler or
visible to the caller, including the processing of the remaining
messages of the same receive result) is identical for any two delete
oracles, every event produced by acknowledgment is a delete call (in
particular no handler invocation carries a delete error), and the whole
run's trace is likewise independent of the delete oracle. -/
theorem C5_delete_error_swallowed (self : SQSListen) (d1 d2 : DeleteOracle)
    (response : ReceiveMessageResult) (handler : Handler) (m : Message)
    (st : ListenState)
    (outcomes : List (Except RusotoError ReceiveMessageResult)) :
    self.process_response d1 response handler
        = self.process_response d2 response handler
    ∧ (self.ack_message d1 m).all Event.isDeleteCall = true
    ∧ runTicks st d1 handler outcomes = runTicks st d2 handler outcomes := by
  refine ⟨?_, ack_message_all_delete self d1 m, ?_⟩
  · cases hresp : response.messages with
    | none => simp [SQSListen.process_response, hresp]
    | some msgs =>
        simp only [SQSListen.process_response, hresp]
        exact process_messages_oracle_free self d1 d2 handler msgs
  · induction outcomes with
    | nil => rfl
    | cons outcome rest ih =>
        simp only [runTicks, ih, List.append_cancel_right_eq]
        cases outcome with
        | error err => rfl
        | ok response2 =>
            cases hresp : response2.messages with
            | none => simp [SQSListen.tick, SQSListen.process_response, hresp]
            | some msgs =>
                simp only [SQSListen.tick, SQSListen.process_response, hresp,
                  List.cons.injEq, true_and]
                exact process_messages_oracle_free st.that d1 d2 handler msgs

/-- Claim C6: every handler invocation the core performs has exactly one
of its two arguments present — `(Some(m), None)` on the success path or
`(None, Some(err))` on the receive-failure path — on any single tick and
on any run of ticks. -/
theorem C6_handler_one_sided (that : SQSListen) (d : DeleteOracle)
    (input : ReceiveMessageRequest) (handler : Handler)
    (outcome : Except RusotoError ReceiveMessageResult) (st : ListenState)
    (outcomes : List (Except RusotoError ReceiveMessageResult)) :
    (that.tick d input handler outcome).all Event.handlerCallOneSided = true
    ∧ (runTicks st d handler outcomes).all Event.handlerCallOneSided = true := by
  have htick : ∀ (that2 : SQSListen) (input2 : ReceiveMessageRequest)
      (outcome2 : Except RusotoError ReceiveMessageResult),
      (that2.tick d input2 handler outcome2).all Event.handlerCallOneSided = true := by
    intro that2 input2 outcome2
    cases outcome2 with
    | error err => simp [SQSListen.tick, Event.handlerCallOneSided]
    | ok response =>
        cases hresp : response.messages with
        | none =>
            simp [SQSListen.tick, SQSListen.process_response, hresp,
              Event.handlerCallOneSided]
        | some msgs =>
            simp [SQSListen.tick, SQSListen.process_response, hresp,
              Event.handlerCallOneSided, process_messages_one_sided]
  refine ⟨htick that input outcome, ?_⟩
  induction outcomes with
  | nil => rfl
  | cons o rest ih => simp [runTicks, List.all_append, ih, htick]

/-- Claim C7: `listen` stores the request unmodified (every field equal
to what the caller supplied), and on a run of any number of ticks the
receive calls issued are exactly one per tick, each carrying precisely
that original request. -/
theorem C7_request_forwarded_unchanged (self : SQSListen)
    (input : ReceiveMessageRequest) (d : DeleteOracle) (handler : Handler)
    (outcomes : List (Except RusotoError ReceiveMessageResult)) :
    (self.listen input).input = input
    ∧ (runTicks (self.listen input) d handler outcomes).filter Event.isReceiveCall
        = List.replicate outcomes.length (Event.receiveCall input) := by
  exact ⟨rfl, runTicks_filter_receive (self.listen input) d handler outcomes⟩

/-- Claim C9: a successful receive result whose `messages` field is
absent makes the tick a no-op: the dispatcher emits no handler call and
no delete call, exactly as for a result carrying an empty message
list. -/
theorem C9_absent_messages_noop (self : SQSListen) (d : DeleteOracle)
    (handler : Handler) :
    self.process_response d ⟨none⟩ handler = []
    ∧ self.process_response d ⟨none⟩ handler
        = self.process_response d ⟨some []⟩ handler
    ∧ (self.process_response d ⟨none⟩ handler).filter Event.isHandlerCall = []
    ∧ (self.process_response d ⟨none⟩ handler).filter Event.isDeleteCall = [] :=
  ⟨rfl, rfl, rfl, rfl⟩

/-- Claim C10, counterexample: at wait time `w = -1` (outside
`[0, 2^32)`) the claimed interval `(w mod 2^32) + 1 = 2^32` is not what
the code computes: the `u32` addition wraps as well, and the computed
interval is `0` seconds. -/
theorem C10_counterexample :
    ((-1 : Int) < 0 ∨ (2 ^ 32 : Int) ≤ -1)
    ∧ ((SQSListen.new Region.UsEast1).listen
          (mkRequest "q" (some (-1)))).interval = 0
    ∧ ((-1 : Int) % 2 ^ 32 + 1).toNat ≠ 0 := by
  refine ⟨Or.inl (by decide), ?_, by decide⟩
  decide

/-- Claim C10 (amended): the interval computation truncates the `i64`
wait time to `u32` before the `u32` addition of 1, and the addition
itself also wraps, so for every wait time `w` outside `[0, 2^32)` the
computed interval equals `((w mod 2^32) + 1) mod 2^32` seconds; a
negative wait time therefore yields an interval near `2^32` seconds
(or `0` when `w ≡ -1 (mod 2^32)`) instead of an error. -/
theorem C10_interval_wraps (self : SQSListen) (input : ReceiveMessageRequest)
    (w : Int) (_hw : w < 0 ∨ 2 ^ 32 ≤ w)
    (hws : input.wait_time_seconds = some w) :
    (self.listen input).interval = ((w % 2 ^ 32 + 1) % 2 ^ 32).toNat := by
  simp only [SQSListen.listen, listen_interval, i64_as_u32, hws]
  omega

/-- Witness for C10 (amended): wait time `-2` yields interval
`2^32 - 1 = 4294967295` seconds. -/
theorem C10_interval_wraps_witness :
    ((SQSListen.new Region.UsEast1).listen
        (mkRequest "q" (some (-2)))).interval = 4294967295 :=
  (C10_interval_wraps (SQSListen.new Region.UsEast1) (mkRequest "q" (some (-2)))
      (-2) (Or.inl (by decide)) rfl).trans (by decide)

end SqsListen
